import Mathlib

/-
Verification of the BCM2708 armctrl interrupt controller driver
(arch/arm/mach-bcm2708/irq.c).

The driver decodes the tiered pending registers of the BCM2708 interrupt
controller.  Bank 0 holds 8 direct sources (bits 0..7), two cascade bits
(bit 8 for bank 1, bit 9 for bank 2) and eleven shortcut bits
(bits 10..20) that alias specific interrupts of banks 1 and 2.

Register reads are modelled by explicit per-bank lists of 32-bit values:
reading a bank's pending register consumes the head of its list, and a
bank whose list has been exhausted reads zero (the hardware eventually
reports no pending work).  Register writes and handler dispatches are
recorded as events so that theorems can speak about exactly which
registers are touched and which logical interrupts are delivered, in
which order.
-/

/- Constants and macros from the top of irq.c. -/

def BIT (n : Nat) : Nat := 1 <<< n

def IS_VALID_BANK (x : Nat) : Bool := decide (0 < x) && decide (x < 32)

def IS_VALID_IRQ (x : Nat) : Bool := decide (x < 32)

def MAKE_HWIRQ (b n : Nat) : Nat := (b <<< 5) ||| n

def HWIRQ_BANK (i : Nat) : Nat := i >>> 5

def HWIRQ_BIT (i : Nat) : Nat := BIT (i &&& 0x1f)

def BANK0_HWIRQ_MASK : Nat := 0xff

def SHORTCUT1_MASK : Nat := 0x00007c00

def SHORTCUT2_MASK : Nat := 0x001f8000

def SHORTCUT_SHIFT : Nat := 10

def BANK1_HWIRQ : Nat := BIT 8

def BANK2_HWIRQ : Nat := BIT 9

def BANK0_VALID_MASK : Nat :=
  BANK0_HWIRQ_MASK ||| BANK1_HWIRQ ||| BANK2_HWIRQ ||| SHORTCUT1_MASK ||| SHORTCUT2_MASK

def NR_BANKS : Nat := 3

def IRQS_PER_BANK : Nat := 32

def shortcuts : List Nat :=
  [7, 9, 10, 18, 19,
   21, 22, 23, 24, 25, 30]

/- The C library function ffs for 32-bit values: index of the least
significant set bit plus one, 0 for input 0.  Defined with an explicit
recursion bound of 32, sufficient for all values below 2 ^ 32. -/

def ffsAux : Nat → Nat → Nat
  | 0, _ => 0
  | f + 1, n => if n = 0 then 0 else if n % 2 = 1 then 1 else ffsAux f (n / 2) + 1

def ffs (n : Nat) : Nat := ffsAux 32 n

/- Observable effects of the driver: register reads (bank and value read),
handler dispatches (the hwirq passed to handle_IRQ via the domain), and
the BUG() halt. -/

inductive Ev where
  | read : Nat → Nat → Ev
  | dispatch : Nat → Ev
  | bug : Ev
deriving DecidableEq, Repr

/- Registers addressable by the mask/unmask operations. -/

inductive Reg where
  | pending : Nat → Reg
  | enable : Nat → Reg
  | disable : Nat → Reg
deriving DecidableEq, Repr

structure RegWrite where
  reg : Reg
  value : Nat
deriving DecidableEq, Repr

/- armctrl_mask_irq: a single writel_relaxed of HWIRQ_BIT(hwirq) to the
disable register of bank HWIRQ_BANK(hwirq).  The returned list is the
complete sequence of register writes the function performs. -/

def armctrl_mask_irq (hwirq : Nat) : List RegWrite :=
  [⟨Reg.disable (HWIRQ_BANK hwirq), HWIRQ_BIT hwirq⟩]

/- armctrl_unmask_irq: a single writel_relaxed of HWIRQ_BIT(hwirq) to the
enable register of bank HWIRQ_BANK(hwirq). -/

def armctrl_unmask_irq (hwirq : Nat) : List RegWrite :=
  [⟨Reg.enable (HWIRQ_BANK hwirq), HWIRQ_BIT hwirq⟩]

def EINVAL : Int := 22

def IRQ_TYPE_NONE : Nat := 0

/- armctrl_xlate: the device-tree translation callback.  The intspec cells
are modelled as a list (its length is intsize).  On success it yields the
packed hwirq together with IRQ_TYPE_NONE; each WARN_ON branch yields
-EINVAL. -/

def armctrl_xlate (intspec : List Nat) : Except Int (Nat × Nat) :=
  if intspec.length ≠ 2 then Except.error (-EINVAL)
  else if NR_BANKS ≤ intspec.getD 0 0 then Except.error (-EINVAL)
  else if IRQS_PER_BANK ≤ intspec.getD 1 0 then Except.error (-EINVAL)
  else Except.ok (MAKE_HWIRQ (intspec.getD 0 0) (intspec.getD 1 0), IRQ_TYPE_NONE)

/- armctrl_handle_shortcut computes the hwirq it hands to handle_IRQ:
MAKE_HWIRQ(bank, shortcuts[ffs(stat >> SHORTCUT_SHIFT) - 1]).  The
dispatch event itself is emitted by the caller armctrl_handle_irq. -/

def armctrl_handle_shortcut (bank : Nat) (stat : Nat) : Nat :=
  MAKE_HWIRQ bank (shortcuts.getD (ffs (stat >>> SHORTCUT_SHIFT) - 1) 0)

/- armctrl_handle_bank: while ((stat = readl(pending[bank]))) dispatch
MAKE_HWIRQ(bank, ffs(stat) - 1).  Takes the list of successive values the
bank's pending register will read and returns the event trace together
with the unconsumed suffix of the read list. -/

def armctrl_handle_bank (bank : Nat) : List Nat → List Ev × List Nat
  | [] => ([Ev.read bank 0], [])
  | v :: rest =>
    if v % 2 ^ 32 = 0 then ([Ev.read bank 0], rest)
    else (Ev.read bank (v % 2 ^ 32) ::
            Ev.dispatch (MAKE_HWIRQ bank (ffs (v % 2 ^ 32) - 1)) ::
            (armctrl_handle_bank bank rest).1,
          (armctrl_handle_bank bank rest).2)

/- armctrl_handle_irq: the top-level dispatch loop.  Each iteration reads
bank 0's pending register, masks it with BANK0_VALID_MASK and exits if
the result is zero; otherwise it services exactly one branch of the
if/else chain (direct source, shortcut 1, shortcut 2, cascade bank 1,
cascade bank 2, BUG) and loops.  p0, p1, p2 are the successive values the
three pending registers will read. -/

def armctrl_handle_irq : List Nat → List Nat → List Nat → List Ev
  | [], _, _ => [Ev.read 0 0]
  | v :: rest, p1, p2 =>
    if (v % 2 ^ 32) &&& BANK0_VALID_MASK = 0 then [Ev.read 0 (v % 2 ^ 32)]
    else if ((v % 2 ^ 32) &&& BANK0_VALID_MASK) &&& BANK0_HWIRQ_MASK ≠ 0 then
      Ev.read 0 (v % 2 ^ 32) ::
        Ev.dispatch (MAKE_HWIRQ 0 (ffs (((v % 2 ^ 32) &&& BANK0_VALID_MASK) &&& BANK0_HWIRQ_MASK) - 1)) ::
        armctrl_handle_irq rest p1 p2
    else if ((v % 2 ^ 32) &&& BANK0_VALID_MASK) &&& SHORTCUT1_MASK ≠ 0 then
      Ev.read 0 (v % 2 ^ 32) ::
        Ev.dispatch (armctrl_handle_shortcut 1 (((v % 2 ^ 32) &&& BANK0_VALID_MASK) &&& SHORTCUT1_MASK)) ::
        armctrl_handle_irq rest p1 p2
    else if ((v % 2 ^ 32) &&& BANK0_VALID_MASK) &&& SHORTCUT2_MASK ≠ 0 then
      Ev.read 0 (v % 2 ^ 32) ::
        Ev.dispatch (armctrl_handle_shortcut 2 (((v % 2 ^ 32) &&& BANK0_VALID_MASK) &&& SHORTCUT2_MASK)) ::
        armctrl_handle_irq rest p1 p2
    else if ((v % 2 ^ 32) &&& BANK0_VALID_MASK) &&& BANK1_HWIRQ ≠ 0 then
      Ev.read 0 (v % 2 ^ 32) ::
        (armctrl_handle_bank 1 p1).1 ++ armctrl_handle_irq rest (armctrl_handle_bank 1 p1).2 p2
    else if ((v % 2 ^ 32) &&& BANK0_VALID_MASK) &&& BANK2_HWIRQ ≠ 0 then
      Ev.read 0 (v % 2 ^ 32) ::
        (armctrl_handle_bank 2 p2).1 ++ armctrl_handle_irq rest p1 (armctrl_handle_bank 2 p2).2
    else
      [Ev.read 0 (v % 2 ^ 32), Ev.bug]

/- Fuel-bounded variants of the two dispatch loops, mirroring the
unbounded C while loops: none means the fuel ran out before the loop
exited.  Used to state termination (claim C5) without assuming it. -/

def armctrl_handle_bank_fuel : Nat → Nat → List Nat → Option (List Ev × List Nat)
  | 0, _, _ => none
  | _ + 1, bank, [] => some ([Ev.read bank 0], [])
  | f + 1, bank, v :: rest =>
    if v % 2 ^ 32 = 0 then some ([Ev.read bank 0], rest)
    else
      match armctrl_handle_bank_fuel f bank rest with
      | none => none
      | some (evs, rem) =>
          some (Ev.read bank (v % 2 ^ 32) ::
                  Ev.dispatch (MAKE_HWIRQ bank (ffs (v % 2 ^ 32) - 1)) :: evs,
                rem)

def armctrl_handle_irq_fuel : Nat → List Nat → List Nat → List Nat → Option (List Ev)
  | 0, _, _, _ => none
  | _ + 1, [], _, _ => some [Ev.read 0 0]
  | f + 1, v :: rest, p1, p2 =>
    if (v % 2 ^ 32) &&& BANK0_VALID_MASK = 0 then some [Ev.read 0 (v % 2 ^ 32)]
    else if ((v % 2 ^ 32) &&& BANK0_VALID_MASK) &&& BANK0_HWIRQ_MASK ≠ 0 then
      match armctrl_handle_irq_fuel f rest p1 p2 with
      | none => none
      | some tl =>
          some (Ev.read 0 (v % 2 ^ 32) ::
                  Ev.dispatch (MAKE_HWIRQ 0 (ffs (((v % 2 ^ 32) &&& BANK0_VALID_MASK) &&& BANK0_HWIRQ_MASK) - 1)) :: tl)
    else if ((v % 2 ^ 32) &&& BANK0_VALID_MASK) &&& SHORTCUT1_MASK ≠ 0 then
      match armctrl_handle_irq_fuel f rest p1 p2 with
      | none => none
      | some tl =>
          some (Ev.read 0 (v % 2 ^ 32) ::
                  Ev.dispatch (armctrl_handle_shortcut 1 (((v % 2 ^ 32) &&& BANK0_VALID_MASK) &&& SHORTCUT1_MASK)) :: tl)
    else if ((v % 2 ^ 32) &&& BANK0_VALID_MASK) &&& SHORTCUT2_MASK ≠ 0 then
      match armctrl_handle_irq_fuel f rest p1 p2 with
      | none => none
      | some tl =>
          some (Ev.read 0 (v % 2 ^ 32) ::
                  Ev.dispatch (armctrl_handle_shortcut 2 (((v % 2 ^ 32) &&& BANK0_VALID_MASK) &&& SHORTCUT2_MASK)) :: tl)
    else if ((v % 2 ^ 32) &&& BANK0_VALID_MASK) &&& BANK1_HWIRQ ≠ 0 then
      match armctrl_handle_bank_fuel f 1 p1 with
      | none => none
      | some (evs, rem) =>
          match armctrl_handle_irq_fuel f rest rem p2 with
          | none => none
          | some tl => some (Ev.read 0 (v % 2 ^ 32) :: evs ++ tl)
    else if ((v % 2 ^ 32) &&& BANK0_VALID_MASK) &&& BANK2_HWIRQ ≠ 0 then
      match armctrl_handle_bank_fuel f 2 p2 with
      | none => none
      | some (evs, rem) =>
          match armctrl_handle_irq_fuel f rest p1 rem with
          | none => none
          | some tl => some (Ev.read 0 (v % 2 ^ 32) :: evs ++ tl)
    else
      some [Ev.read 0 (v % 2 ^ 32), Ev.bug]

/- k is the position of the least significant set bit of v. -/

def isLowestSetBit (v k : Nat) : Prop :=
  v.testBit k = true ∧ ∀ j, j < k → v.testBit j = false

/- Generic bit-level helper lemmas. -/

theorem land_lor_distrib (x a b : Nat) : x &&& (a ||| b) = (x &&& a) ||| (x &&& b) :=
  Nat.and_or_distrib_left x a b

theorem land_mask_idem (x m : Nat) : (x &&& m) &&& m = x &&& m := by
  rw [Nat.and_assoc, Nat.and_self]

/- If a value has empty intersection with each of the five bank-0 masks,
it has empty intersection with BANK0_VALID_MASK. -/

theorem valid_and_eq_zero (v : Nat)
    (h1 : v &&& BANK0_HWIRQ_MASK = 0) (h2 : v &&& BANK1_HWIRQ = 0)
    (h3 : v &&& BANK2_HWIRQ = 0) (h4 : v &&& SHORTCUT1_MASK = 0)
    (h5 : v &&& SHORTCUT2_MASK = 0) : v &&& BANK0_VALID_MASK = 0 := by
  show v &&& (BANK0_HWIRQ_MASK ||| BANK1_HWIRQ ||| BANK2_HWIRQ ||| SHORTCUT1_MASK ||| SHORTCUT2_MASK) = 0
  rw [land_lor_distrib, land_lor_distrib, land_lor_distrib, land_lor_distrib,
    h1, h2, h3, h4, h5]
  decide

/- ffs computes the least significant set bit. -/

theorem ffsAux_pos : ∀ (f n : Nat), n ≠ 0 → n < 2 ^ f → 1 ≤ ffsAux f n := by
  intro f n hn hf
  cases f with
  | zero => omega
  | succ f =>
    simp only [ffsAux]
    rw [if_neg hn]
    by_cases hodd : n % 2 = 1
    · rw [if_pos hodd]
    · rw [if_neg hodd]
      omega

theorem ffsAux_spec : ∀ (f n : Nat), n ≠ 0 → n < 2 ^ f →
    n.testBit (ffsAux f n - 1) = true ∧ ∀ j, j < ffsAux f n - 1 → n.testBit j = false := by
  intro f
  induction f with
  | zero => intro n hn hf; omega
  | succ f ih =>
    intro n hn hf
    simp only [ffsAux]
    rw [if_neg hn]
    by_cases hodd : n % 2 = 1
    · rw [if_pos hodd]
      constructor
      · simpa [Nat.testBit_zero] using hodd
      · intro j hj; omega
    · rw [if_neg hodd]
      have hmod : n % 2 = 0 := by omega
      have hhalf : n / 2 ≠ 0 := by omega
      have hlt : n / 2 < 2 ^ f := by
        rw [Nat.pow_succ] at hf; omega
      have hrec := ih (n / 2) hhalf hlt
      have hpos := ffsAux_pos f (n / 2) hhalf hlt
      constructor
      · have heq : ffsAux f (n / 2) + 1 - 1 = (ffsAux f (n / 2) - 1) + 1 := by omega
        rw [heq, ← Nat.succ_eq_add_one, Nat.testBit_succ]
        exact hrec.1
      · intro j hj
        cases j with
        | zero => simp [Nat.testBit_zero, hmod]
        | succ j =>
          rw [Nat.testBit_succ]
          exact hrec.2 j (by omega)

theorem ffs_spec (n : Nat) (hn : n ≠ 0) (hlt : n < 2 ^ 32) :
    isLowestSetBit n (ffs n - 1) :=
  ffsAux_spec 32 n hn hlt

/- One-step unfolding lemmas for the bank-0 dispatch loop, one per branch
of the if/else chain. -/

theorem handle_irq_exit (v : Nat) (rest p1 p2 : List Nat)
    (h : (v % 2 ^ 32) &&& BANK0_VALID_MASK = 0) :
    armctrl_handle_irq (v :: rest) p1 p2 = [Ev.read 0 (v % 2 ^ 32)] := by
  simp only [armctrl_handle_irq]
  rw [if_pos h]

theorem stat_ne_zero {v m : Nat} (h : ((v % 2 ^ 32) &&& BANK0_VALID_MASK) &&& m ≠ 0) :
    ¬((v % 2 ^ 32) &&& BANK0_VALID_MASK = 0) := by
  intro hz
  rw [hz, Nat.zero_and] at h
  exact h rfl

theorem handle_irq_source (v : Nat) (rest p1 p2 : List Nat)
    (h : ((v % 2 ^ 32) &&& BANK0_VALID_MASK) &&& BANK0_HWIRQ_MASK ≠ 0) :
    armctrl_handle_irq (v :: rest) p1 p2 =
      Ev.read 0 (v % 2 ^ 32) ::
        Ev.dispatch (MAKE_HWIRQ 0 (ffs (((v % 2 ^ 32) &&& BANK0_VALID_MASK) &&& BANK0_HWIRQ_MASK) - 1)) ::
        armctrl_handle_irq rest p1 p2 := by
  simp only [armctrl_handle_irq]
  rw [if_neg (stat_ne_zero h), if_pos h]

theorem handle_irq_shortcut1 (v : Nat) (rest p1 p2 : List Nat)
    (h0 : ((v % 2 ^ 32) &&& BANK0_VALID_MASK) &&& BANK0_HWIRQ_MASK = 0)
    (h : ((v % 2 ^ 32) &&& BANK0_VALID_MASK) &&& SHORTCUT1_MASK ≠ 0) :
    armctrl_handle_irq (v :: rest) p1 p2 =
      Ev.read 0 (v % 2 ^ 32) ::
        Ev.dispatch (armctrl_handle_shortcut 1 (((v % 2 ^ 32) &&& BANK0_VALID_MASK) &&& SHORTCUT1_MASK)) ::
        armctrl_handle_irq rest p1 p2 := by
  simp only [armctrl_handle_irq]
  rw [if_neg (stat_ne_zero h), if_neg (by simpa using h0), if_pos h]

theorem handle_irq_shortcut2 (v : Nat) (rest p1 p2 : List Nat)
    (h0 : ((v % 2 ^ 32) &&& BANK0_VALID_MASK) &&& BANK0_HWIRQ_MASK = 0)
    (h1 : ((v % 2 ^ 32) &&& BANK0_VALID_MASK) &&& SHORTCUT1_MASK = 0)
    (h : ((v % 2 ^ 32) &&& BANK0_VALID_MASK) &&& SHORTCUT2_MASK ≠ 0) :
    armctrl_handle_irq (v :: rest) p1 p2 =
      Ev.read 0 (v % 2 ^ 32) ::
        Ev.dispatch (armctrl_handle_shortcut 2 (((v % 2 ^ 32) &&& BANK0_VALID_MASK) &&& SHORTCUT2_MASK)) ::
        armctrl_handle_irq rest p1 p2 := by
  simp only [armctrl_handle_irq]
  rw [if_neg (stat_ne_zero h), if_neg (by simpa using h0), if_neg (by simpa using h1), if_pos h]

theorem handle_irq_bank1 (v : Nat) (rest p1 p2 : List Nat)
    (h0 : ((v % 2 ^ 32) &&& BANK0_VALID_MASK) &&& BANK0_HWIRQ_MASK = 0)
    (h1 : ((v % 2 ^ 32) &&& BANK0_VALID_MASK) &&& SHORTCUT1_MASK = 0)
    (h2 : ((v % 2 ^ 32) &&& BANK0_VALID_MASK) &&& SHORTCUT2_MASK = 0)
    (h : ((v % 2 ^ 32) &&& BANK0_VALID_MASK) &&& BANK1_HWIRQ ≠ 0) :
    armctrl_handle_irq (v :: rest) p1 p2 =
      Ev.read 0 (v % 2 ^ 32) ::
        (armctrl_handle_bank 1 p1).1 ++ armctrl_handle_irq rest (armctrl_handle_bank 1 p1).2 p2 := by
  simp only [armctrl_handle_irq]
  rw [if_neg (stat_ne_zero h), if_neg (by simpa using h0), if_neg (by simpa using h1),
    if_neg (by simpa using h2), if_pos h]

theorem handle_irq_bank2 (v : Nat) (rest p1 p2 : List Nat)
    (h0 : ((v % 2 ^ 32) &&& BANK0_VALID_MASK) &&& BANK0_HWIRQ_MASK = 0)
    (h1 : ((v % 2 ^ 32) &&& BANK0_VALID_MASK) &&& SHORTCUT1_MASK = 0)
    (h2 : ((v % 2 ^ 32) &&& BANK0_VALID_MASK) &&& SHORTCUT2_MASK = 0)
    (h3 : ((v % 2 ^ 32) &&& BANK0_VALID_MASK) &&& BANK1_HWIRQ = 0)
    (h : ((v % 2 ^ 32) &&& BANK0_VALID_MASK) &&& BANK2_HWIRQ ≠ 0) :
    armctrl_handle_irq (v :: rest) p1 p2 =
      Ev.read 0 (v % 2 ^ 32) ::
        (armctrl_handle_bank 2 p2).1 ++ armctrl_handle_irq rest p1 (armctrl_handle_bank 2 p2).2 := by
  simp only [armctrl_handle_irq]
  rw [if_neg (stat_ne_zero h), if_neg (by simpa using h0), if_neg (by simpa using h1),
    if_neg (by simpa using h2), if_neg (by simpa using h3), if_pos h]

/- Unfolding lemmas for the child-bank loop. -/

theorem handle_bank_cons (bank v : Nat) (rest : List Nat) (h : v % 2 ^ 32 ≠ 0) :
    armctrl_handle_bank bank (v :: rest) =
      (Ev.read bank (v % 2 ^ 32) ::
         Ev.dispatch (MAKE_HWIRQ bank (ffs (v % 2 ^ 32) - 1)) ::
         (armctrl_handle_bank bank rest).1,
       (armctrl_handle_bank bank rest).2) := by
  simp only [armctrl_handle_bank]
  rw [if_neg h]

theorem handle_bank_no_bug : ∀ (bank : Nat) (reads : List Nat),
    Ev.bug ∉ (armctrl_handle_bank bank reads).1 := by
  intro bank reads
  induction reads with
  | nil => simp [armctrl_handle_bank]
  | cons v rest ih =>
    by_cases h : v % 2 ^ 32 = 0
    · simp only [armctrl_handle_bank]
      rw [if_pos h]
      simp
    · rw [handle_bank_cons bank v rest h]
      simp only [List.mem_cons]
      push_neg
      exact ⟨by simp, by simp, ih⟩

theorem handle_bank_rem_length : ∀ (bank : Nat) (reads : List Nat),
    (armctrl_handle_bank bank reads).2.length ≤ reads.length := by
  intro bank reads
  induction reads with
  | nil => simp [armctrl_handle_bank]
  | cons v rest ih =>
    by_cases h : v % 2 ^ 32 = 0
    · simp only [armctrl_handle_bank]
      rw [if_pos h]
      simp
    · rw [handle_bank_cons bank v rest h]
      simpa using Nat.le_succ_of_le ih

/- The fuel-bounded loops agree with the total interpreters once the fuel
exceeds the number of reads still available, so the C while loops, which
the fuel-bounded functions mirror step for step, exit. -/

theorem handle_bank_fuel_adequate :
    ∀ (reads : List Nat) (f bank : Nat), reads.length < f →
      armctrl_handle_bank_fuel f bank reads = some (armctrl_handle_bank bank reads) := by
  intro reads
  induction reads with
  | nil =>
    intro f bank h
    cases f with
    | zero => omega
    | succ f => rfl
  | cons v rest ih =>
    intro f bank h
    cases f with
    | zero => simp at h
    | succ f =>
      simp only [armctrl_handle_bank_fuel, armctrl_handle_bank]
      by_cases hz : v % 2 ^ 32 = 0
      · rw [if_pos hz, if_pos hz]
      · rw [if_neg hz, if_neg hz, ih f bank (by simp at h; omega)]

theorem handle_irq_fuel_adequate :
    ∀ (p0 p1 p2 : List Nat) (f : Nat), p0.length + p1.length + p2.length < f →
      armctrl_handle_irq_fuel f p0 p1 p2 = some (armctrl_handle_irq p0 p1 p2) := by
  intro p0
  induction p0 with
  | nil =>
    intro p1 p2 f h
    cases f with
    | zero => omega
    | succ f => rfl
  | cons v rest ih =>
    intro p1 p2 f h
    cases f with
    | zero => omega
    | succ f =>
      have hlen : rest.length + p1.length + p2.length < f := by
        simp only [List.length_cons] at h; omega
      simp only [armctrl_handle_irq_fuel, armctrl_handle_irq]
      by_cases hz : (v % 2 ^ 32) &&& BANK0_VALID_MASK = 0
      · rw [if_pos hz, if_pos hz]
      · rw [if_neg hz, if_neg hz]
        by_cases h1 : ((v % 2 ^ 32) &&& BANK0_VALID_MASK) &&& BANK0_HWIRQ_MASK ≠ 0
        · rw [if_pos h1, if_pos h1, ih p1 p2 f hlen]
        · rw [if_neg h1, if_neg h1]
          by_cases h2 : ((v % 2 ^ 32) &&& BANK0_VALID_MASK) &&& SHORTCUT1_MASK ≠ 0
          · rw [if_pos h2, if_pos h2, ih p1 p2 f hlen]
          · rw [if_neg h2, if_neg h2]
            by_cases h3 : ((v % 2 ^ 32) &&& BANK0_VALID_MASK) &&& SHORTCUT2_MASK ≠ 0
            · rw [if_pos h3, if_pos h3, ih p1 p2 f hlen]
            · rw [if_neg h3, if_neg h3]
              by_cases h4 : ((v % 2 ^ 32) &&& BANK0_VALID_MASK) &&& BANK1_HWIRQ ≠ 0
              · rw [if_pos h4, if_pos h4]
                simp only [handle_bank_fuel_adequate p1 f 1 (by omega),
                  ih ((armctrl_handle_bank 1 p1).2) p2 f
                    (by have := handle_bank_rem_length 1 p1; omega)]
              · rw [if_neg h4, if_neg h4]
                by_cases h5 : ((v % 2 ^ 32) &&& BANK0_VALID_MASK) &&& BANK2_HWIRQ ≠ 0
                · rw [if_pos h5, if_pos h5]
                  simp only [handle_bank_fuel_adequate p2 f 2 (by omega),
                    ih p1 ((armctrl_handle_bank 2 p2).2) f
                      (by have := handle_bank_rem_length 2 p2; omega)]
                · rw [if_neg h5, if_neg h5]

/- Arithmetic views of the hwirq packing macros. -/

theorem BIT_eq_pow (n : Nat) : BIT n = 2 ^ n := by
  show 1 <<< n = 2 ^ n
  rw [Nat.shiftLeft_eq, Nat.one_mul]

theorem HWIRQ_BANK_div (h : Nat) : HWIRQ_BANK h = h / 32 := by
  show h >>> 5 = h / 32
  rw [Nat.shiftRight_eq_div_pow]

theorem HWIRQ_BIT_mod (h : Nat) : HWIRQ_BIT h = 2 ^ (h % 32) := by
  show BIT (h &&& 0x1f) = 2 ^ (h % 32)
  rw [BIT_eq_pow]
  have h31 : (0x1f : Nat) = 2 ^ 5 - 1 := by norm_num
  rw [h31, Nat.and_pow_two_sub_one_eq_mod]

theorem hwirq_roundtrip : ∀ b, b < 32 → ∀ n, n < 32 →
    HWIRQ_BANK (MAKE_HWIRQ b n) = b ∧ HWIRQ_BIT (MAKE_HWIRQ b n) = BIT n := by
  decide

/-- Claim C9: for all bank indices b < 32 and bit indices n < 32 the
logical-identifier packing round-trips, HWIRQ_BANK (MAKE_HWIRQ b n) = b and
HWIRQ_BIT (MAKE_HWIRQ b n) = BIT n, and consequently MAKE_HWIRQ is injective
on such pairs: every (bank, bit) pair maps to exactly one logical
identifier. -/
theorem C9_theorem : ∀ b n : Nat, b < 32 → n < 32 →
    (HWIRQ_BANK (MAKE_HWIRQ b n) = b ∧ HWIRQ_BIT (MAKE_HWIRQ b n) = BIT n) ∧
    ∀ b2 n2 : Nat, b2 < 32 → n2 < 32 → MAKE_HWIRQ b n = MAKE_HWIRQ b2 n2 →
      b = b2 ∧ n = n2 := by
  intro b n hb hn
  refine ⟨hwirq_roundtrip b hb n hn, ?_⟩
  intro b2 n2 hb2 hn2 heq
  have r1 := hwirq_roundtrip b hb n hn
  have r2 := hwirq_roundtrip b2 hb2 n2 hn2
  have hbank : b = b2 := by rw [← r1.1, ← r2.1, heq]
  have hbit : BIT n = BIT n2 := by rw [← r1.2, ← r2.2, heq]
  rw [BIT_eq_pow, BIT_eq_pow] at hbit
  exact ⟨hbank, Nat.pow_right_injective (by norm_num) hbit⟩

/-- Witness for C9 at bank 2, bit 7. -/
theorem C9_witness :
    HWIRQ_BANK (MAKE_HWIRQ 2 7) = 2 ∧ HWIRQ_BIT (MAKE_HWIRQ 2 7) = BIT 7 :=
  (C9_theorem 2 7 (by decide) (by decide)).1

/-- Claim C8: for every logical identifier h, the mask operation performs
exactly one register write, the single bit 2 ^ (h mod 32) to the disable
register of bank h div 32, and touches no other register; the unmask
operation performs the corresponding single write to the enable
register. -/
theorem C8_theorem : ∀ h : Nat,
    armctrl_mask_irq h = [⟨Reg.disable (h / 32), 2 ^ (h % 32)⟩] ∧
    armctrl_unmask_irq h = [⟨Reg.enable (h / 32), 2 ^ (h % 32)⟩] := by
  intro h
  constructor
  · show [(⟨Reg.disable (HWIRQ_BANK h), HWIRQ_BIT h⟩ : RegWrite)] = _
    rw [HWIRQ_BANK_div, HWIRQ_BIT_mod]
  · show [(⟨Reg.enable (HWIRQ_BANK h), HWIRQ_BIT h⟩ : RegWrite)] = _
    rw [HWIRQ_BANK_div, HWIRQ_BIT_mod]

/-- Counterexample to claim C7 as stated: the translation accepts bank
index 0 (the claim says bank 0 must be rejected) and rejects bank index 3
(the claim says all of 1..31 must be accepted). -/
theorem C7_counterexample :
    armctrl_xlate [0, 0] = Except.ok (MAKE_HWIRQ 0 0, IRQ_TYPE_NONE) ∧
    armctrl_xlate [3, 0] = Except.error (-EINVAL) :=
  ⟨rfl, rfl⟩

/-- Claim C7 amended: for a two-cell specifier, translation succeeds
exactly for bank indices 0..2 (below NR_BANKS) with bit index below 32,
and fails with -EINVAL for bank indices at or above NR_BANKS or bit
indices at or above 32; the unused IS_VALID_BANK bound of 1..31 is not
what armctrl_xlate checks. -/
theorem C7_theorem : ∀ b i : Nat,
    (b < NR_BANKS → i < IRQS_PER_BANK →
      armctrl_xlate [b, i] = Except.ok (MAKE_HWIRQ b i, IRQ_TYPE_NONE)) ∧
    (NR_BANKS ≤ b → armctrl_xlate [b, i] = Except.error (-EINVAL)) ∧
    (IRQS_PER_BANK ≤ i → armctrl_xlate [b, i] = Except.error (-EINVAL)) := by
  intro b i
  have hlen : ¬(([b, i] : List Nat).length ≠ 2) := by simp
  have g0 : ([b, i] : List Nat).getD 0 0 = b := rfl
  have g1 : ([b, i] : List Nat).getD 1 0 = i := rfl
  refine ⟨?_, ?_, ?_⟩
  · intro hb hi
    have hb3 : b < 3 := hb
    have hi32 : i < 32 := hi
    simp only [armctrl_xlate, g0, g1, NR_BANKS, IRQS_PER_BANK]
    rw [if_neg hlen, if_neg (by omega : ¬((3 : Nat) ≤ b)),
      if_neg (by omega : ¬((32 : Nat) ≤ i))]
  · intro hb
    have hb3 : (3 : Nat) ≤ b := hb
    simp only [armctrl_xlate, g0, g1, NR_BANKS, IRQS_PER_BANK]
    rw [if_neg hlen, if_pos hb3]
  · intro hi
    have hi32 : (32 : Nat) ≤ i := hi
    simp only [armctrl_xlate, g0, g1, NR_BANKS, IRQS_PER_BANK]
    by_cases hb3 : (3 : Nat) ≤ b
    · rw [if_neg hlen, if_pos hb3]
    · rw [if_neg hlen, if_neg hb3, if_pos hi32]

/-- Witness for C7 at bank 1, bit 5. -/
theorem C7_witness :
    armctrl_xlate [1, 5] = Except.ok (MAKE_HWIRQ 1 5, IRQ_TYPE_NONE) :=
  (C7_theorem 1 5).1 (by decide) (by decide)

/-- Counterexample to claim C3 as stated: masking the cascade identifier
(bank 0, bit 8) does not return an error and does not leave the disable
register untouched; armctrl_mask_irq performs a register write for it. -/
theorem C3_counterexample :
    armctrl_mask_irq (MAKE_HWIRQ 0 8) = [⟨Reg.disable 0, BIT 8⟩] ∧
    armctrl_mask_irq (MAKE_HWIRQ 0 8) ≠ ([] : List RegWrite) :=
  ⟨rfl, by decide⟩

/-- Claim C3 amended: for every cascade or shortcut bit n (8 ≤ n ≤ 20) of
bank 0, the mask and unmask operations perform the same unconditional
single-bit write to bank 0's disable and enable register that they perform
for any other identifier; no error value exists and no request is
rejected (the unmaskability of these bits is a documented hardware quirk,
not enforced by the driver). -/
theorem C3_theorem : ∀ n : Nat, 8 ≤ n → n ≤ 20 →
    armctrl_mask_irq (MAKE_HWIRQ 0 n) = [⟨Reg.disable 0, BIT n⟩] ∧
    armctrl_unmask_irq (MAKE_HWIRQ 0 n) = [⟨Reg.enable 0, BIT n⟩] := by
  intro n h1 h2
  interval_cases n <;> exact ⟨rfl, rfl⟩

/-- Witness for C3 at shortcut bit 10. -/
theorem C3_witness :
    armctrl_mask_irq (MAKE_HWIRQ 0 10) = [⟨Reg.disable 0, BIT 10⟩] ∧
    armctrl_unmask_irq (MAKE_HWIRQ 0 10) = [⟨Reg.enable 0, BIT 10⟩] :=
  C3_theorem 10 (by decide) (by decide)

/-- Counterexample to claim C2 as stated: bank-0 pending bit 21 belongs to
none of the three categories, yet the dispatch loop neither halts nor
signals any error; the bit is masked off by BANK0_VALID_MASK and the loop
exits after a single read, silently swallowing the bit. -/
theorem C2_counterexample :
    BIT 21 &&& BANK0_VALID_MASK = 0 ∧ (BIT 21 : Nat) ≠ 0 ∧
    armctrl_handle_irq [BIT 21] [] [] = [Ev.read 0 (BIT 21)] := by
  decide

/-- Claim C2 amended: a pending value all of whose set bits lie outside
BANK0_VALID_MASK (bits 21..31) terminates the dispatch loop immediately
after the read, with no dispatch and no fatal error: such bits are
silently masked off, never serviced and never signalled, regardless of
any further pending values. -/
theorem C2_theorem : ∀ (v : Nat) (rest p1 p2 : List Nat), v < 2 ^ 32 →
    v &&& BANK0_VALID_MASK = 0 →
    armctrl_handle_irq (v :: rest) p1 p2 = [Ev.read 0 v] := by
  intro v rest p1 p2 hv h
  have hm : v % 2 ^ 32 = v := Nat.mod_eq_of_lt hv
  have h2 := handle_irq_exit v rest p1 p2 (by rw [hm]; exact h)
  rw [hm] at h2
  exact h2

/-- Witness for C2: pending bit 21 with a further nonzero value queued. -/
theorem C2_witness :
    armctrl_handle_irq [BIT 21, 0xff] [] [] = [Ev.read 0 (BIT 21)] :=
  C2_theorem (BIT 21) [0xff] [] [] (by decide) (by decide)

/-- Claim C10: every 32-bit value with a set bit inside BANK0_VALID_MASK
matches at least one of the five category tests of the dispatch chain, so
the final BUG() fallback branch is unreachable: no trace of
armctrl_handle_irq ever contains the bug event. -/
theorem C10_theorem :
    (∀ v : Nat, v &&& BANK0_VALID_MASK ≠ 0 →
      v &&& BANK0_HWIRQ_MASK ≠ 0 ∨ v &&& SHORTCUT1_MASK ≠ 0 ∨
      v &&& SHORTCUT2_MASK ≠ 0 ∨ v &&& BANK1_HWIRQ ≠ 0 ∨ v &&& BANK2_HWIRQ ≠ 0) ∧
    ∀ p0 p1 p2 : List Nat, Ev.bug ∉ armctrl_handle_irq p0 p1 p2 := by
  constructor
  · intro v hv
    by_contra hc
    push_neg at hc
    obtain ⟨hsrc, hsc1, hsc2, hb1, hb2⟩ := hc
    exact hv (valid_and_eq_zero v hsrc hb1 hb2 hsc1 hsc2)
  · intro p0
    induction p0 with
    | nil => intro p1 p2; simp [armctrl_handle_irq]
    | cons v rest ih =>
      intro p1 p2
      by_cases hz : (v % 2 ^ 32) &&& BANK0_VALID_MASK = 0
      · rw [handle_irq_exit v rest p1 p2 hz]
        simp
      · by_cases h1 : ((v % 2 ^ 32) &&& BANK0_VALID_MASK) &&& BANK0_HWIRQ_MASK ≠ 0
        · rw [handle_irq_source v rest p1 p2 h1]
          simp only [List.mem_cons]
          push_neg
          exact ⟨by simp, by simp, ih p1 p2⟩
        · push_neg at h1
          by_cases h2 : ((v % 2 ^ 32) &&& BANK0_VALID_MASK) &&& SHORTCUT1_MASK ≠ 0
          · rw [handle_irq_shortcut1 v rest p1 p2 h1 h2]
            simp only [List.mem_cons]
            push_neg
            exact ⟨by simp, by simp, ih p1 p2⟩
          · push_neg at h2
            by_cases h3 : ((v % 2 ^ 32) &&& BANK0_VALID_MASK) &&& SHORTCUT2_MASK ≠ 0
            · rw [handle_irq_shortcut2 v rest p1 p2 h1 h2 h3]
              simp only [List.mem_cons]
              push_neg
              exact ⟨by simp, by simp, ih p1 p2⟩
            · push_neg at h3
              by_cases h4 : ((v % 2 ^ 32) &&& BANK0_VALID_MASK) &&& BANK1_HWIRQ ≠ 0
              · rw [handle_irq_bank1 v rest p1 p2 h1 h2 h3 h4]
                simp [List.mem_cons, List.mem_append, handle_bank_no_bug 1 p1,
                  ih ((armctrl_handle_bank 1 p1).2) p2]
              · push_neg at h4
                by_cases h5 : ((v % 2 ^ 32) &&& BANK0_VALID_MASK) &&& BANK2_HWIRQ ≠ 0
                · rw [handle_irq_bank2 v rest p1 p2 h1 h2 h3 h4 h5]
                  simp [List.mem_cons, List.mem_append, handle_bank_no_bug 2 p2,
                    ih p1 ((armctrl_handle_bank 2 p2).2)]
                · push_neg at h5
                  exfalso
                  apply hz
                  have hzero := valid_and_eq_zero ((v % 2 ^ 32) &&& BANK0_VALID_MASK)
                    h1 h4 h5 h2 h3
                  rwa [land_mask_idem] at hzero

/-- Witness for C10 at the direct-source bit 4. -/
theorem C10_witness :
    BIT 4 &&& BANK0_VALID_MASK ≠ 0 ∧
    (BIT 4 &&& BANK0_HWIRQ_MASK ≠ 0 ∨ BIT 4 &&& SHORTCUT1_MASK ≠ 0 ∨
     BIT 4 &&& SHORTCUT2_MASK ≠ 0 ∨ BIT 4 &&& BANK1_HWIRQ ≠ 0 ∨
     BIT 4 &&& BANK2_HWIRQ ≠ 0) :=
  ⟨by decide, C10_theorem.1 (BIT 4) (by decide)⟩

/-- Claim C5: for every finite sequence of pending-register read values
(after which every register reads zero), the top-level service loop,
modelled step for step by the fuel-bounded interpreter, terminates: some
finite fuel suffices and the result is the complete trace. -/
theorem C5_theorem : ∀ p0 p1 p2 : List Nat, ∃ fuel : Nat,
    armctrl_handle_irq_fuel fuel p0 p1 p2 = some (armctrl_handle_irq p0 p1 p2) := by
  intro p0 p1 p2
  exact ⟨p0.length + p1.length + p2.length + 1,
    handle_irq_fuel_adequate p0 p1 p2 _ (by omega)⟩

/-- Claim C6: on each iteration armctrl_handle_bank dispatches
MAKE_HWIRQ(bank, ffs(stat) - 1) for the freshly read pending value stat,
and ffs(stat) - 1 is the lowest set bit of stat, so set bits of a child
bank are serviced in ascending bit-index order; in particular with bank 1
reading BIT 2 ||| BIT 5 and then BIT 5, bit 2 is dispatched before bit 5
and exactly two dispatches occur before the zero read returns. -/
theorem C6_theorem :
    (∀ (bank v : Nat) (rest : List Nat), v % 2 ^ 32 ≠ 0 →
      (armctrl_handle_bank bank (v :: rest)).1 =
        Ev.read bank (v % 2 ^ 32) ::
          Ev.dispatch (MAKE_HWIRQ bank (ffs (v % 2 ^ 32) - 1)) ::
          (armctrl_handle_bank bank rest).1 ∧
      isLowestSetBit (v % 2 ^ 32) (ffs (v % 2 ^ 32) - 1)) ∧
    (armctrl_handle_bank 1 [BIT 2 ||| BIT 5, BIT 5, 0]).1 =
      [Ev.read 1 (BIT 2 ||| BIT 5), Ev.dispatch (MAKE_HWIRQ 1 2),
       Ev.read 1 (BIT 5), Ev.dispatch (MAKE_HWIRQ 1 5), Ev.read 1 0] := by
  constructor
  · intro bank v rest h
    refine ⟨?_, ffs_spec _ h (Nat.mod_lt v (by norm_num))⟩
    rw [handle_bank_cons bank v rest h]
  · decide

/-- Witness for C6 at bank 1 with pending value BIT 2 ||| BIT 5. -/
theorem C6_witness :
    (armctrl_handle_bank 1 [BIT 2 ||| BIT 5, BIT 5, 0]).1 =
      Ev.read 1 ((BIT 2 ||| BIT 5) % 2 ^ 32) ::
        Ev.dispatch (MAKE_HWIRQ 1 (ffs ((BIT 2 ||| BIT 5) % 2 ^ 32) - 1)) ::
        (armctrl_handle_bank 1 [BIT 5, 0]).1 ∧
    isLowestSetBit ((BIT 2 ||| BIT 5) % 2 ^ 32) (ffs ((BIT 2 ||| BIT 5) % 2 ^ 32) - 1) :=
  C6_theorem.1 1 (BIT 2 ||| BIT 5) [BIT 5, 0] (by decide)

/-- Claim C4: a bank-0 pending word asserting only shortcut bit k
(10 ≤ k ≤ 14 targeting bank 1, 15 ≤ k ≤ 20 targeting bank 2) causes
exactly one dispatch, to MAKE_HWIRQ(target bank, shortcuts[k - 10]), and
the trace contains no read of any other bank, for every content of the
bank 1 and bank 2 pending registers. -/
theorem C4_theorem : ∀ k : Nat, 10 ≤ k → k ≤ 20 → ∀ p1 p2 : List Nat,
    armctrl_handle_irq [BIT k] p1 p2 =
      [Ev.read 0 (BIT k),
       Ev.dispatch (MAKE_HWIRQ (if k ≤ 14 then 1 else 2) (shortcuts.getD (k - 10) 0)),
       Ev.read 0 0] := by
  intro k h1 h2 p1 p2
  interval_cases k <;> rfl

/-- Witness for C4 at shortcut bit 15, the first bit aliasing bank 2. -/
theorem C4_witness :
    armctrl_handle_irq [BIT 15] [] [] =
      [Ev.read 0 (BIT 15),
       Ev.dispatch (MAKE_HWIRQ (if 15 ≤ 14 then 1 else 2) (shortcuts.getD (15 - 10) 0)),
       Ev.read 0 0] :=
  C4_theorem 15 (by decide) (by decide) [] []

/-- Counterexample to claim C1 as stated: with bank-0 pending 0x500, both
cascade bit 8 and shortcut bit 10 are set, yet the loop dispatches the
shortcut interrupt MAKE_HWIRQ 1 7 first and services the cascade (the
bank 1 read and the dispatch of MAKE_HWIRQ 1 3) only on the next pass:
the lower bit 8 is not serviced before the higher bit 10. -/
theorem C1_counterexample :
    (0x500 : Nat) &&& BANK1_HWIRQ ≠ 0 ∧ (0x500 : Nat) &&& SHORTCUT1_MASK ≠ 0 ∧
    armctrl_handle_irq [0x500, 0x100, 0] [0x8, 0] [] =
      [Ev.read 0 0x500, Ev.dispatch (MAKE_HWIRQ 1 7), Ev.read 0 0x100,
       Ev.read 1 0x8, Ev.dispatch (MAKE_HWIRQ 1 3), Ev.read 1 0, Ev.read 0 0] := by
  decide

/-- Claim C1 amended: each pass of the dispatch loop services the lowest
set bit of the highest-priority nonempty category of the masked pending
word, under the fixed category priority direct sources (bits 0..7), then
shortcut 1 (bits 10..14), then shortcut 2 (bits 15..20), then cascade
bit 8, then cascade bit 9, re-reading the pending register after each
dispatch; ascending bit-index order holds within each category, but a set
shortcut bit is serviced before a simultaneously set cascade bit 8 or 9,
not after it. -/
theorem C1_theorem : ∀ (v : Nat) (rest p1 p2 : List Nat),
    (((v % 2 ^ 32) &&& BANK0_VALID_MASK) &&& BANK0_HWIRQ_MASK ≠ 0 →
      armctrl_handle_irq (v :: rest) p1 p2 =
        Ev.read 0 (v % 2 ^ 32) ::
          Ev.dispatch (MAKE_HWIRQ 0 (ffs (((v % 2 ^ 32) &&& BANK0_VALID_MASK) &&& BANK0_HWIRQ_MASK) - 1)) ::
          armctrl_handle_irq rest p1 p2 ∧
      isLowestSetBit (((v % 2 ^ 32) &&& BANK0_VALID_MASK) &&& BANK0_HWIRQ_MASK)
        (ffs (((v % 2 ^ 32) &&& BANK0_VALID_MASK) &&& BANK0_HWIRQ_MASK) - 1)) ∧
    (((v % 2 ^ 32) &&& BANK0_VALID_MASK) &&& BANK0_HWIRQ_MASK = 0 →
     ((v % 2 ^ 32) &&& BANK0_VALID_MASK) &&& SHORTCUT1_MASK ≠ 0 →
      armctrl_handle_irq (v :: rest) p1 p2 =
        Ev.read 0 (v % 2 ^ 32) ::
          Ev.dispatch (armctrl_handle_shortcut 1 (((v % 2 ^ 32) &&& BANK0_VALID_MASK) &&& SHORTCUT1_MASK)) ::
          armctrl_handle_irq rest p1 p2 ∧
      isLowestSetBit (((v % 2 ^ 32) &&& BANK0_VALID_MASK) &&& SHORTCUT1_MASK)
        (ffs (((v % 2 ^ 32) &&& BANK0_VALID_MASK) &&& SHORTCUT1_MASK) - 1)) ∧
    (((v % 2 ^ 32) &&& BANK0_VALID_MASK) &&& BANK0_HWIRQ_MASK = 0 →
     ((v % 2 ^ 32) &&& BANK0_VALID_MASK) &&& SHORTCUT1_MASK = 0 →
     ((v % 2 ^ 32) &&& BANK0_VALID_MASK) &&& SHORTCUT2_MASK ≠ 0 →
      armctrl_handle_irq (v :: rest) p1 p2 =
        Ev.read 0 (v % 2 ^ 32) ::
          Ev.dispatch (armctrl_handle_shortcut 2 (((v % 2 ^ 32) &&& BANK0_VALID_MASK) &&& SHORTCUT2_MASK)) ::
          armctrl_handle_irq rest p1 p2 ∧
      isLowestSetBit (((v % 2 ^ 32) &&& BANK0_VALID_MASK) &&& SHORTCUT2_MASK)
        (ffs (((v % 2 ^ 32) &&& BANK0_VALID_MASK) &&& SHORTCUT2_MASK) - 1)) ∧
    (((v % 2 ^ 32) &&& BANK0_VALID_MASK) &&& BANK0_HWIRQ_MASK = 0 →
     ((v % 2 ^ 32) &&& BANK0_VALID_MASK) &&& SHORTCUT1_MASK = 0 →
     ((v % 2 ^ 32) &&& BANK0_VALID_MASK) &&& SHORTCUT2_MASK = 0 →
     ((v % 2 ^ 32) &&& BANK0_VALID_MASK) &&& BANK1_HWIRQ ≠ 0 →
      armctrl_handle_irq (v :: rest) p1 p2 =
        Ev.read 0 (v % 2 ^ 32) ::
          (armctrl_handle_bank 1 p1).1 ++
            armctrl_handle_irq rest (armctrl_handle_bank 1 p1).2 p2) ∧
    (((v % 2 ^ 32) &&& BANK0_VALID_MASK) &&& BANK0_HWIRQ_MASK = 0 →
     ((v % 2 ^ 32) &&& BANK0_VALID_MASK) &&& SHORTCUT1_MASK = 0 →
     ((v % 2 ^ 32) &&& BANK0_VALID_MASK) &&& SHORTCUT2_MASK = 0 →
     ((v % 2 ^ 32) &&& BANK0_VALID_MASK) &&& BANK1_HWIRQ = 0 →
     ((v % 2 ^ 32) &&& BANK0_VALID_MASK) &&& BANK2_HWIRQ ≠ 0 →
      armctrl_handle_irq (v :: rest) p1 p2 =
        Ev.read 0 (v % 2 ^ 32) ::
          (armctrl_handle_bank 2 p2).1 ++
            armctrl_handle_irq rest p1 (armctrl_handle_bank 2 p2).2) := by
  intro v rest p1 p2
  refine ⟨?_, ?_, ?_, ?_, ?_⟩
  · intro h
    exact ⟨handle_irq_source v rest p1 p2 h,
      ffs_spec _ h (lt_of_le_of_lt Nat.and_le_right (by decide))⟩
  · intro h0 h
    exact ⟨handle_irq_shortcut1 v rest p1 p2 h0 h,
      ffs_spec _ h (lt_of_le_of_lt Nat.and_le_right (by decide))⟩
  · intro h0 h1 h
    exact ⟨handle_irq_shortcut2 v rest p1 p2 h0 h1 h,
      ffs_spec _ h (lt_of_le_of_lt Nat.and_le_right (by decide))⟩
  · intro h0 h1 h2 h
    exact handle_irq_bank1 v rest p1 p2 h0 h1 h2 h
  · intro h0 h1 h2 h3 h
    exact handle_irq_bank2 v rest p1 p2 h0 h1 h2 h3 h

/-- Witness for C1: the shortcut branch fires for pending 0x500 although
cascade bit 8 is simultaneously set. -/
theorem C1_witness :
    armctrl_handle_irq [0x500] [] [] =
      Ev.read 0 (0x500 % 2 ^ 32) ::
        Ev.dispatch (armctrl_handle_shortcut 1 (((0x500 % 2 ^ 32) &&& BANK0_VALID_MASK) &&& SHORTCUT1_MASK)) ::
        armctrl_handle_irq [] [] [] ∧
    isLowestSetBit (((0x500 % 2 ^ 32) &&& BANK0_VALID_MASK) &&& SHORTCUT1_MASK)
      (ffs (((0x500 % 2 ^ 32) &&& BANK0_VALID_MASK) &&& SHORTCUT1_MASK) - 1) :=
  (C1_theorem 0x500 [] [] []).2.1 (by decide) (by decide)
